import Mathlib

/-!
Verification of the NEXORA trust-minimized claim-settlement protocol.

The on-chain program (`programs/nexora/src/lib.rs`, reproduced in the
repository's delivery documents) is shallowly embedded here:

* bytes are `Nat`s, byte buffers are `List Nat`;
* the external Keccak-256 primitive (`keccak::hash` on-chain,
  `keccak_256` from `@noble/hashes` in the client) is an explicit
  function parameter `keccak : List Nat → List Nat`, since the hash is
  an external library primitive the program only invokes;
* `u64` values are `Nat`s, with `< 2 ^ 64` bounds stated where the
  encoding into 8 little-endian bytes depends on them;
* Anchor's `require!`/`?` early-return style becomes `Except`, and a
  failed instruction rolls the whole transaction back, so an `.error`
  result carries no state mutation (`runClaim` makes this explicit by
  returning the untouched pre-state next to the error);
* a Rust panic from out-of-range slicing of the Ed25519 instruction
  data (which likewise aborts the transaction) is modelled as the
  `InvalidEd25519Data` error.
-/

namespace Nexora

/-- The `u64::to_le_bytes`-style little-endian byte decomposition:
`leBytesAux k v` is the `k` low-order bytes of `v`, least significant
first. -/
def leBytesAux : Nat → Nat → List Nat
  | 0, _ => []
  | k + 1, v => v % 256 :: leBytesAux k (v / 256)

/-- Rust `u64::to_le_bytes`: the 8 little-endian bytes of a `u64`. -/
def toLeBytes8 (v : Nat) : List Nat := leBytesAux 8 v

/-- Little-endian decoding of a byte list (byte 0 least significant);
used only to state that `toLeBytes8` really is little-endian. -/
def fromLeBytes : List Nat → Nat
  | [] => 0
  | b :: bs => b + 256 * fromLeBytes bs

/-- The `MXE_PUBKEY` constant from `lib.rs:36` (the placeholder value in the
repository is 32 zero bytes). -/
def MXE_PUBKEY : List Nat := List.replicate 32 0

/-- Stand-in for the Solana Ed25519 program address
(`ed25519_program::ID`); only its identity matters to the logic. -/
def ed25519ProgramID : Nat := 0

/-- A transaction instruction as seen through the instructions sysvar:
`load_instruction_at_checked` yields its program id and raw data. -/
structure Instruction where
  programId : Nat
  data : List Nat
  deriving DecidableEq, Repr

/-- The error codes of the program's `#[error_code] enum ErrorCode`
that the claim path can surface. -/
inductive ErrorCode where
  | MarketNotResolved
  | AlreadyClaimed
  | NonceAlreadyUsed
  | InvalidInstructionSysvar
  | Ed25519InstructionMissing
  | InvalidEd25519Program
  | InvalidEd25519Data
  | InvalidSignatureCount
  | InvalidMXEPublicKey
  | SignatureMismatch
  | InvalidMessageLength
  | MessageMismatch
  | InsufficientVaultBalance
  deriving DecidableEq, Repr

/-- The `Market` account fields the claim path reads: its address
(`market.key()`) and its resolution flag. -/
structure Market where
  key : List Nat
  resolved : Bool
  deriving DecidableEq, Repr

/-- The `UserPosition` account (`lib.rs:620`), the per-(market, user)
claim-ledger entry. -/
structure UserPosition where
  user : List Nat
  market : List Nat
  amount : Nat
  claimed : Bool
  nonce_used : Nat
  bump : Nat
  deriving DecidableEq, Repr

/-- The accounts `claim_with_proof` touches: the market, the ledger
entry, the vault token balance, the user's token balance, and the
caller's address (`ctx.accounts.user.key()`). -/
structure ClaimState where
  market : Market
  position : UserPosition
  vaultAmount : Nat
  userTokenAmount : Nat
  userKey : List Nat
  deriving DecidableEq, Repr

/-- The 80-byte buffer `data` built inside `construct_payout_message`
(`lib.rs:328`): `market (32) ‖ user (32) ‖ payout LE (8) ‖ nonce LE (8)`. -/
def construct_payout_data (market user : List Nat) (payout nonce : Nat) :
    List Nat :=
  market ++ user ++ toLeBytes8 payout ++ toLeBytes8 nonce

/-- The `construct_payout_message` helper (`lib.rs:328`): Keccak-256 of the
canonical 80-byte buffer. -/
def construct_payout_message (keccak : List Nat → List Nat)
    (market user : List Nat) (payout nonce : Nat) : List Nat :=
  keccak (construct_payout_data market user payout nonce)

/-- Rust `u16::from_le_bytes([data[i], data[i+1]])` as used to parse the
Ed25519 instruction's offset table. -/
def readU16le (data : List Nat) (i : Nat) : Nat :=
  data.getD i 0 + 256 * data.getD (i + 1) 0

/-- Offset of the public key inside the Ed25519 instruction data
(the program reads it from bytes 4–5). -/
def pubkeyOffsetOf (data : List Nat) : Nat := readU16le data 4

/-- Offset of the signature inside the Ed25519 instruction data
(bytes 2–3). -/
def signatureOffsetOf (data : List Nat) : Nat := readU16le data 2

/-- Offset of the message inside the Ed25519 instruction data
(bytes 6–7). -/
def messageOffsetOf (data : List Nat) : Nat := readU16le data 6

/-- Rust `&data[off .. off + len]`: `some` slice when in bounds, `none` for
the Rust panic (which aborts the transaction). -/
def sliceAt (data : List Nat) (off len : Nat) : Option (List Nat) :=
  if off + len ≤ data.length then some ((data.drop off).take len) else none

/-- The `verify_mxe_signature` helper (`lib.rs:351`): load the instruction at
index 0 from the instructions sysvar, require the Ed25519 program, then
compare the public key, signature and message bytes it carries against
the hardcoded MXE key, the caller-presented signature, and the digest
recomputed on-chain. -/
def verify_mxe_signature (ctx : List Instruction)
    (expected_message expected_signature : List Nat) :
    Except ErrorCode Unit :=
  match ctx.head? with
  | none => .error .Ed25519InstructionMissing
  | some ix =>
    if ix.programId ≠ ed25519ProgramID then .error .InvalidEd25519Program
    else if ix.data.length < 8 then .error .InvalidEd25519Data
    else
      match sliceAt ix.data (pubkeyOffsetOf ix.data) 32 with
      | none => .error .InvalidEd25519Data
      | some pubkey =>
        if pubkey ≠ MXE_PUBKEY then .error .InvalidMXEPublicKey
        else
          match sliceAt ix.data (signatureOffsetOf ix.data) 64 with
          | none => .error .InvalidEd25519Data
          | some signature =>
            if signature ≠ expected_signature then .error .SignatureMismatch
            else
              match sliceAt ix.data (messageOffsetOf ix.data) 32 with
              | none => .error .InvalidEd25519Data
              | some message =>
                if message ≠ expected_message then .error .MessageMismatch
                else .ok ()

/-- Steps 2–3 of `claim_with_proof` (the claim-ledger check):
`require!(!position.claimed, AlreadyClaimed)` then
`require!(position.nonce_used == 0, NonceAlreadyUsed)`. The proposed
`nonce` is passed for the statement of the ledger-check claims but the
delivered code never examines it here. -/
def checkClaimable (position : UserPosition) (nonce : Nat) :
    Option ErrorCode :=
  if position.claimed then some .AlreadyClaimed
  else if position.nonce_used ≠ 0 then some .NonceAlreadyUsed
  else none

/-- Step 7 of `claim_with_proof` (the atomic commit): transfer `payout`
from the vault to the user's token account, then set
`position.claimed = true` and `position.nonce_used = nonce`. -/
def settleState (st : ClaimState) (payout nonce : Nat) : ClaimState :=
  { st with
    vaultAmount := st.vaultAmount - payout,
    userTokenAmount := st.userTokenAmount + payout,
    position := { st.position with claimed := true, nonce_used := nonce } }

/-- The `claim_with_proof` instruction (`lib.rs:232`), the six-step flow:
market resolved, ledger check, on-chain message reconstruction,
Ed25519 side-channel verification, solvency check, then the atomic
transfer-and-commit. -/
def claim_with_proof (keccak : List Nat → List Nat) (st : ClaimState)
    (payout nonce : Nat) (signature : List Nat) (ctx : List Instruction) :
    Except ErrorCode ClaimState :=
  if st.market.resolved = false then .error .MarketNotResolved
  else
    match checkClaimable st.position nonce with
    | some e => .error e
    | none =>
      match
        verify_mxe_signature ctx
          (construct_payout_message keccak st.market.key st.userKey payout nonce)
          signature with
      | .error e => .error e
      | .ok _ =>
        if st.vaultAmount < payout then .error .InsufficientVaultBalance
        else .ok (settleState st payout nonce)

/-- A claim instruction executed as a transaction: on success the new
state, on error the untouched pre-state next to the error code (the
runtime rolls back every mutation of a failed transaction). -/
def runClaim (keccak : List Nat → List Nat) (st : ClaimState)
    (payout nonce : Nat) (signature : List Nat) (ctx : List Instruction) :
    ClaimState × Option ErrorCode :=
  match claim_with_proof keccak st payout nonce signature ctx with
  | .ok st2 => (st2, none)
  | .error e => (st, some e)

/-- One submitted claim attempt (the caller-supplied arguments of
`claim_with_proof` plus the transaction's instruction list). -/
structure ClaimArgs where
  payout : Nat
  nonce : Nat
  signature : List Nat
  ctx : List Instruction

/-- Execute one claim attempt, returning the resulting state and
whether it succeeded. -/
def claimStep (keccak : List Nat → List Nat) (st : ClaimState)
    (a : ClaimArgs) : ClaimState × Bool :=
  match claim_with_proof keccak st a.payout a.nonce a.signature a.ctx with
  | .ok st2 => (st2, true)
  | .error _ => (st, false)

/-- Execute a sequence of claim attempts in order. -/
def seqClaim (keccak : List Nat → List Nat) (st : ClaimState) :
    List ClaimArgs → ClaimState
  | [] => st
  | a :: l => seqClaim keccak (claimStep keccak st a).1 l

/-- Number of successful claims in a sequence of attempts. -/
def countSuccesses (keccak : List Nat → List Nat) (st : ClaimState) :
    List ClaimArgs → Nat
  | [] => 0
  | a :: l =>
    (if (claimStep keccak st a).2 then 1 else 0) +
      countSuccesses keccak (claimStep keccak st a).1 l

/-- JS `new BN(v).toArray('le', 8)` from the frontend
(`app/src/lib/claim-with-proof.ts`): the 8 little-endian bytes of `v`;
`BN.toArray` throws when the value does not fit the requested width,
modelled as `none`. -/
def bnToArrayLe8 (v : Nat) : Option (List Nat) :=
  if v < 2 ^ 64 then some ((List.range 8).map fun i => v / 256 ^ i % 256)
  else none

/-- The client `constructPayoutMessage` from `app/src/lib/claim-with-proof.ts`:
`keccak_256(Buffer.concat([market, user, payoutLE8, nonceLE8]))`. -/
def constructPayoutMessage (keccak : List Nat → List Nat)
    (market user : List Nat) (payout nonce : Nat) : Option (List Nat) :=
  match bnToArrayLe8 payout, bnToArrayLe8 nonce with
  | some pb, some nb => some (keccak (market ++ user ++ pb ++ nb))
  | _, _ => none

/-! ## Concrete artifacts used by the evaluation witnesses -/

set_option maxRecDepth 8000

instance {ε α : Type} [DecidableEq ε] [DecidableEq α] :
    DecidableEq (Except ε α)
  | .ok a, .ok b =>
    if h : a = b then .isTrue (by rw [h]) else .isFalse (by simp [h])
  | .error a, .error b =>
    if h : a = b then .isTrue (by rw [h]) else .isFalse (by simp [h])
  | .ok _, .error _ => .isFalse (by simp)
  | .error _, .ok _ => .isFalse (by simp)

/-- A concrete stand-in for the external Keccak-256 primitive, used only
to evaluate the embedding on concrete inputs: it returns a fixed
32-byte digest. -/
def keccakC : List Nat → List Nat := fun _ => List.replicate 32 7

/-- A concrete injective stand-in for the external Keccak-256 primitive
(collision-free, as the tamper-detection argument assumes of the real
hash): it encodes the whole input into the first byte slot and pads to
32 entries. -/
def keccakInj : List Nat → List Nat :=
  fun l => Encodable.encode l :: List.replicate 31 0

/-- A concrete 64-byte signature. -/
def sigC : List Nat := List.replicate 64 9

/-- Header of a single-signature Ed25519 verification instruction laid
out so that the program's offset parsing finds the public key at 16,
the signature at 48 and the message at 112. -/
def ed25519HeaderC : List Nat :=
  [1, 0, 48, 0, 16, 0, 112, 0, 0, 0, 0, 0, 0, 0, 0, 0]

/-- Ed25519 instruction data carrying the given public key, signature
and message at the offsets announced by `ed25519HeaderC`. -/
def mkIxData (pubkey sig msg : List Nat) : List Nat :=
  ed25519HeaderC ++ pubkey ++ sig ++ msg

/-- Concrete Ed25519 instruction data for the fixed digest of
`keccakC` under the MXE key. -/
def ixDataC : List Nat := mkIxData MXE_PUBKEY sigC (List.replicate 32 7)

/-- A concrete transaction instruction list: the Ed25519 verification
instruction at index 0. -/
def ctxC : List Instruction := [⟨ed25519ProgramID, ixDataC⟩]

/-- The example market address from the specification: 32 bytes of
`0x11`. -/
def marketKeyC : List Nat := List.replicate 32 17

/-- The example user address from the specification: 32 bytes of
`0x22`. -/
def userKeyC : List Nat := List.replicate 32 34

/-- A fresh (unclaimed, nonce-unused) ledger entry. -/
def positionC : UserPosition := ⟨userKeyC, marketKeyC, 50, false, 0, 255⟩

/-- A concrete pre-claim state: resolved market, fresh ledger entry,
vault holding 100 tokens. -/
def stC : ClaimState := ⟨⟨marketKeyC, true⟩, positionC, 100, 0, userKeyC⟩

/-! ## Byte-encoding lemmas -/

theorem leBytesAux_length (k : Nat) : ∀ v, (leBytesAux k v).length = k := by
  induction k with
  | zero => intro v; rfl
  | succ k ih => intro v; simp [leBytesAux, ih]

theorem fromLeBytes_leBytesAux (k : Nat) :
    ∀ v, fromLeBytes (leBytesAux k v) = v % 256 ^ k := by
  induction k with
  | zero => intro v; simp [leBytesAux, fromLeBytes, Nat.mod_one]
  | succ k ih =>
    intro v
    rw [leBytesAux, fromLeBytes, ih (v / 256), pow_succ, mul_comm (256 ^ k) 256,
      Nat.mod_mul]

theorem toLeBytes8_length (v : Nat) : (toLeBytes8 v).length = 8 :=
  leBytesAux_length 8 v

theorem fromLeBytes_toLeBytes8 (v : Nat) (h : v < 2 ^ 64) :
    fromLeBytes (toLeBytes8 v) = v := by
  have h256 : (256 : Nat) ^ 8 = 2 ^ 64 := by norm_num
  rw [toLeBytes8, fromLeBytes_leBytesAux, h256, Nat.mod_eq_of_lt h]

theorem toLeBytes8_inj {p q : Nat} (hp : p < 2 ^ 64) (hq : q < 2 ^ 64)
    (h : toLeBytes8 p = toLeBytes8 q) : p = q := by
  rw [← fromLeBytes_toLeBytes8 p hp, ← fromLeBytes_toLeBytes8 q hq, h]

theorem range_map_eq_leBytesAux (k : Nat) :
    ∀ v, (List.range k).map (fun i => v / 256 ^ i % 256) = leBytesAux k v := by
  induction k with
  | zero => intro v; rfl
  | succ k ih =>
    intro v
    rw [List.range_succ_eq_map, List.map_cons, List.map_map, leBytesAux]
    refine congrArg₂ _ (by simp) ?_
    rw [← ih (v / 256)]
    refine List.map_congr_left fun i _ => ?_
    simp only [Function.comp_apply]
    rw [Nat.div_div_eq_div_mul, ← pow_succ']

theorem construct_payout_data_length {m u : List Nat} (p n : Nat)
    (hm : m.length = 32) (hu : u.length = 32) :
    (construct_payout_data m u p n).length = 80 := by
  simp [construct_payout_data, hm, hu, toLeBytes8_length]

theorem construct_payout_data_inj {m u m' u' : List Nat} {p n p' n' : Nat}
    (hm : m.length = 32) (hm' : m'.length = 32)
    (hu : u.length = 32) (hu' : u'.length = 32)
    (hp : p < 2 ^ 64) (hp' : p' < 2 ^ 64)
    (hn : n < 2 ^ 64) (hn' : n' < 2 ^ 64)
    (h : construct_payout_data m u p n = construct_payout_data m' u' p' n') :
    m = m' ∧ u = u' ∧ p = p' ∧ n = n' := by
  unfold construct_payout_data at h
  obtain ⟨h1, h6⟩ := List.append_inj h
    (by simp [hm, hm', hu, hu', toLeBytes8_length])
  obtain ⟨h2, h5⟩ := List.append_inj h1 (by simp [hm, hm', hu, hu'])
  obtain ⟨h3, h4⟩ := List.append_inj h2 (hm.trans hm'.symm)
  exact ⟨h3, h4, toLeBytes8_inj hp hp' h5, toLeBytes8_inj hn hn' h6⟩

/-! ## Protocol lemmas -/

theorem checkClaimable_none_iff (pos : UserPosition) (n : Nat) :
    checkClaimable pos n = none ↔
      pos.claimed = false ∧ pos.nonce_used = 0 := by
  unfold checkClaimable
  rcases hcl : pos.claimed <;> rcases hnu : pos.nonce_used <;> simp

theorem verify_ok_iff (ctx : List Instruction) (emsg esig : List Nat) :
    verify_mxe_signature ctx emsg esig = .ok () ↔
      ∃ ix, ctx.head? = some ix ∧ ix.programId = ed25519ProgramID ∧
        8 ≤ ix.data.length ∧
        sliceAt ix.data (pubkeyOffsetOf ix.data) 32 = some MXE_PUBKEY ∧
        sliceAt ix.data (signatureOffsetOf ix.data) 64 = some esig ∧
        sliceAt ix.data (messageOffsetOf ix.data) 32 = some emsg := by
  unfold verify_mxe_signature
  cases hhead : ctx.head? with
  | none => simp
  | some ix =>
    simp only [hhead, Option.some.injEq]
    constructor
    · intro hok
      by_cases h1 : ix.programId = ed25519ProgramID
      swap
      · simp [h1] at hok
      by_cases h2 : ix.data.length < 8
      · simp [h1, h2] at hok
      rcases h3 : sliceAt ix.data (pubkeyOffsetOf ix.data) 32 with _ | pk
      · simp [h1, h2, h3] at hok
      rcases h4 : sliceAt ix.data (signatureOffsetOf ix.data) 64 with _ | sg
      · simp only [h1, h2, h3, h4] at hok
        split_ifs at hok <;> simp at hok
      rcases h5 : sliceAt ix.data (messageOffsetOf ix.data) 32 with _ | mg
      · simp only [h1, h2, h3, h4, h5] at hok
        split_ifs at hok <;> simp at hok
      by_cases h6 : pk = MXE_PUBKEY
      swap
      · simp [h1, h2, h3, h6] at hok
      by_cases h7 : sg = esig
      swap
      · simp [h1, h2, h3, h4, h6, h7] at hok
      by_cases h8 : mg = emsg
      swap
      · simp [h1, h2, h3, h4, h5, h6, h7, h8] at hok
      exact ⟨ix, rfl, h1, Nat.le_of_not_lt h2, h6 ▸ h3, h7 ▸ h4, h8 ▸ h5⟩
    · rintro ⟨ix', hix', h1, h2, h3, h4, h5⟩
      cases hix'
      simp [h1, Nat.not_lt.mpr h2, h3, h4, h5]

theorem claim_claimed_error {keccak : List Nat → List Nat}
    {st : ClaimState} {p n : Nat} {s : List Nat} {c : List Instruction}
    (hcl : st.position.claimed = true) :
    claim_with_proof keccak st p n s c =
      .error (if st.market.resolved = false then .MarketNotResolved
              else .AlreadyClaimed) := by
  unfold claim_with_proof checkClaimable
  rcases hres : st.market.resolved <;> simp [hres, hcl]

theorem claimStep_of_claimed {keccak : List Nat → List Nat}
    {st : ClaimState} {a : ClaimArgs}
    (hcl : st.position.claimed = true) :
    claimStep keccak st a = (st, false) := by
  unfold claimStep
  rw [claim_claimed_error hcl]

theorem count_of_claimed {keccak : List Nat → List Nat} {st : ClaimState}
    (hcl : st.position.claimed = true) :
    ∀ l, countSuccesses keccak st l = 0 := by
  intro l
  induction l with
  | nil => rfl
  | cons a l ih =>
    rw [countSuccesses, claimStep_of_claimed hcl]
    simpa using ih

theorem claim_ok_spec {keccak : List Nat → List Nat} {st : ClaimState}
    {payout nonce : Nat} {signature : List Nat} {ctx : List Instruction}
    {st2 : ClaimState}
    (hok : claim_with_proof keccak st payout nonce signature ctx = .ok st2) :
    st.market.resolved = true ∧ st.position.claimed = false ∧
    st.position.nonce_used = 0 ∧
    verify_mxe_signature ctx
      (construct_payout_message keccak st.market.key st.userKey payout nonce)
      signature = .ok () ∧
    payout ≤ st.vaultAmount ∧ st2 = settleState st payout nonce := by
  unfold claim_with_proof at hok
  rcases hres : st.market.resolved with _ | _
  · rw [hres] at hok; simp at hok
  rw [hres, if_neg (by simp)] at hok
  rcases hcc : checkClaimable st.position nonce with _ | e
  swap
  · rw [hcc] at hok; simp at hok
  rw [hcc] at hok
  rcases hv : verify_mxe_signature ctx
      (construct_payout_message keccak st.market.key st.userKey payout nonce)
      signature with e | u
  · rw [hv] at hok; simp at hok
  rw [hv] at hok
  rcases hsol : decide (st.vaultAmount < payout) with _ | _
  · have hsol' : ¬ st.vaultAmount < payout := of_decide_eq_false hsol
    rw [if_neg hsol'] at hok
    obtain ⟨hcl, hnu⟩ := (checkClaimable_none_iff st.position nonce).mp hcc
    cases u
    exact ⟨rfl, hcl, hnu, rfl, Nat.le_of_not_lt hsol',
      (Except.ok.inj hok).symm⟩
  · have hsol' : st.vaultAmount < payout := of_decide_eq_true hsol
    rw [if_pos hsol'] at hok
    simp at hok

theorem claim_ok_claimed {keccak : List Nat → List Nat} {st : ClaimState}
    {p n : Nat} {s : List Nat} {c : List Instruction} {st2 : ClaimState}
    (hok : claim_with_proof keccak st p n s c = .ok st2) :
    st2.position.claimed = true := by
  obtain ⟨-, -, -, -, -, h⟩ := claim_ok_spec hok
  rw [h]
  rfl

theorem count_le_one (keccak : List Nat → List Nat) :
    ∀ (l : List ClaimArgs) (st : ClaimState),
      countSuccesses keccak st l ≤ 1 := by
  intro l
  induction l with
  | nil => intro st; exact Nat.zero_le 1
  | cons a l ih =>
    intro st
    rw [countSuccesses]
    cases hc : claim_with_proof keccak st a.payout a.nonce a.signature a.ctx
      with
    | error e =>
      have hstep : claimStep keccak st a = (st, false) := by
        unfold claimStep; rw [hc]
      rw [hstep]
      simpa using ih st
    | ok st2 =>
      have hstep : claimStep keccak st a = (st2, true) := by
        unfold claimStep; rw [hc]
      rw [hstep]
      simp [count_of_claimed (claim_ok_claimed hc)]

/-! ## Claim theorems -/

/-- C3 counterexample: the claim predicts the ledger check fails for a
proposed nonce of 0 and succeeds for any fresh nonzero nonce different
from the consumed one; the delivered code does the opposite on both
counts. On a fresh entry the check (and the whole claim) succeeds with
proposed nonce 0, and on an unclaimed entry with `nonce_used = 5` the
check rejects the fresh nonce 7. -/
theorem C3_ledger_check_counterexample :
    checkClaimable positionC 0 = none ∧
    (runClaim keccakC stC 5 0 sigC ctxC).2 = none ∧
    checkClaimable { positionC with nonce_used := 5 } 7 =
      some ErrorCode.NonceAlreadyUsed :=
  ⟨by decide, by decide, by decide⟩

/-- C3 (amended): the ledger check of `claim_with_proof` succeeds iff
`claimed == false` and the entry's `nonce_used == 0`; it never examines
the proposed nonce (the result is the same for any two proposed
nonces), failing `AlreadyClaimed` when `claimed == true` and
`NonceAlreadyUsed` when `nonce_used != 0`. -/
theorem C3_ledger_check_amended (pos : UserPosition) (n n' : Nat) :
    (checkClaimable pos n = none ↔
      pos.claimed = false ∧ pos.nonce_used = 0) ∧
    checkClaimable pos n = checkClaimable pos n' ∧
    (pos.claimed = true → checkClaimable pos n = some .AlreadyClaimed) ∧
    (pos.claimed = false → pos.nonce_used ≠ 0 →
      checkClaimable pos n = some .NonceAlreadyUsed) := by
  unfold checkClaimable
  rcases hcl : pos.claimed <;> rcases hnu : pos.nonce_used <;> simp

/-- C3 witness: the amended ledger-check characterisation evaluated on
an unclaimed entry with a consumed nonce. -/
theorem C3_ledger_check_amended_witness :
    (checkClaimable { positionC with nonce_used := 5 } 7 = none ↔
      UserPosition.claimed { positionC with nonce_used := 5 } = false ∧
      UserPosition.nonce_used { positionC with nonce_used := 5 } = 0) ∧
    checkClaimable { positionC with nonce_used := 5 } 7 =
      some ErrorCode.NonceAlreadyUsed :=
  ⟨(C3_ledger_check_amended { positionC with nonce_used := 5 } 7 9).1,
    (C3_ledger_check_amended { positionC with nonce_used := 5 } 7 9).2.2.2
      (by decide) (by decide)⟩

/-- C4: presenting the previously consumed nonce recorded in
`nonce_used` against an entry that is not marked claimed fails with
`NonceAlreadyUsed` — an error kind distinct from `AlreadyClaimed` —
and the transaction transfers nothing (the pre-state is returned
untouched). -/
theorem C4_nonce_replay_rejected (keccak : List Nat → List Nat)
    (st : ClaimState) (p : Nat) (s : List Nat) (ctx : List Instruction)
    (hres : st.market.resolved = true)
    (hcl : st.position.claimed = false)
    (hnu : st.position.nonce_used ≠ 0) :
    runClaim keccak st p st.position.nonce_used s ctx =
      (st, some .NonceAlreadyUsed) ∧
    ErrorCode.NonceAlreadyUsed ≠ ErrorCode.AlreadyClaimed := by
  refine ⟨?_, by decide⟩
  unfold runClaim claim_with_proof checkClaimable
  rw [hres, if_neg (by simp), if_neg (by rw [hcl]; simp), if_pos hnu]

/-- C4 witness: a concrete replay of nonce 42 against an unclaimed
entry recording `nonce_used = 42`. -/
theorem C4_nonce_replay_rejected_witness :
    runClaim keccakC { stC with position := { positionC with nonce_used := 42 } }
        5
        (UserPosition.nonce_used
          (ClaimState.position
            { stC with position := { positionC with nonce_used := 42 } }))
        sigC ctxC =
      ({ stC with position := { positionC with nonce_used := 42 } },
        some .NonceAlreadyUsed) ∧
    ErrorCode.NonceAlreadyUsed ≠ ErrorCode.AlreadyClaimed :=
  C4_nonce_replay_rejected keccakC
    { stC with position := { positionC with nonce_used := 42 } } 5 sigC ctxC
    (by decide) (by decide) (by decide)

/-- C6: the canonical message is exactly the 80-byte concatenation
`market (32) ‖ user (32) ‖ payout LE (8) ‖ nonce LE (8)` with no length
prefixes (the payout and nonce encodings are 8 bytes each and decode
little-endian to the original values), and the commitment is the
external Keccak-256 primitive applied to exactly those 80 bytes. -/
theorem C6_canonical_message_layout (keccak : List Nat → List Nat)
    (m u : List Nat) (p n : Nat)
    (hm : m.length = 32) (hu : u.length = 32)
    (hp : p < 2 ^ 64) (hn : n < 2 ^ 64) :
    construct_payout_data m u p n =
      m ++ u ++ toLeBytes8 p ++ toLeBytes8 n ∧
    (construct_payout_data m u p n).length = 80 ∧
    (toLeBytes8 p).length = 8 ∧ (toLeBytes8 n).length = 8 ∧
    fromLeBytes (toLeBytes8 p) = p ∧ fromLeBytes (toLeBytes8 n) = n ∧
    construct_payout_message keccak m u p n =
      keccak (construct_payout_data m u p n) :=
  ⟨rfl, construct_payout_data_length p n hm hu, toLeBytes8_length p,
    toLeBytes8_length n, fromLeBytes_toLeBytes8 p hp,
    fromLeBytes_toLeBytes8 n hn, rfl⟩

/-- C6 witness: the layout facts at the specification's example inputs
(`market = 0x11…11`, `user = 0x22…22`, payout 1000000, nonce 42). -/
theorem C6_canonical_message_layout_witness :
    marketKeyC.length = 32 ∧ userKeyC.length = 32 ∧
    1000000 < 2 ^ 64 ∧ 42 < 2 ^ 64 ∧
    ((construct_payout_data marketKeyC userKeyC 1000000 42).length = 80 ∧
      fromLeBytes (toLeBytes8 1000000) = 1000000) :=
  ⟨by decide, by decide, by decide, by decide,
    ⟨(C6_canonical_message_layout keccakC marketKeyC userKeyC 1000000 42
        (by decide) (by decide) (by decide) (by decide)).2.1,
      (C6_canonical_message_layout keccakC marketKeyC userKeyC 1000000 42
        (by decide) (by decide) (by decide) (by decide)).2.2.2.2.1⟩⟩

/-- C7: for every `(market, user, payout, nonce)` with the `u64` values
in range, the frontend `constructPayoutMessage` and the program's
`construct_payout_message` compute the same digest (same byte order,
field order and hash input). -/
theorem C7_client_matches_onchain (keccak : List Nat → List Nat)
    (m u : List Nat) (p n : Nat) (hp : p < 2 ^ 64) (hn : n < 2 ^ 64) :
    constructPayoutMessage keccak m u p n =
      some (construct_payout_message keccak m u p n) := by
  unfold constructPayoutMessage bnToArrayLe8
  rw [if_pos hp, if_pos hn]
  rw [range_map_eq_leBytesAux, range_map_eq_leBytesAux]
  rfl

/-- C7 witness: the two message constructions agree at the
specification's example inputs. -/
theorem C7_client_matches_onchain_witness :
    1000000 < 2 ^ 64 ∧ 42 < 2 ^ 64 ∧
    constructPayoutMessage keccakC marketKeyC userKeyC 1000000 42 =
      some (construct_payout_message keccakC marketKeyC userKeyC
        1000000 42) :=
  ⟨by decide, by decide,
    C7_client_matches_onchain keccakC marketKeyC userKeyC 1000000 42
      (by decide) (by decide)⟩

/-- C8: a structurally and cryptographically valid proof whose payout
exceeds the vault balance fails `InsufficientVaultBalance` with the
pre-state returned untouched, and every erroring claim (this one or any
other) leaves the state untouched — no partial transfer. -/
theorem C8_insufficient_vault (keccak : List Nat → List Nat)
    (st st₂ : ClaimState) (p n p₂ n₂ : Nat) (s s₂ : List Nat)
    (ctx ctx₂ : List Instruction) (e : ErrorCode)
    (hres : st.market.resolved = true)
    (hcl : st.position.claimed = false)
    (hnu : st.position.nonce_used = 0)
    (hval : verify_mxe_signature ctx
      (construct_payout_message keccak st.market.key st.userKey p n) s =
      .ok ())
    (hover : st.vaultAmount < p)
    (herr : (runClaim keccak st₂ p₂ n₂ s₂ ctx₂).2 = some e) :
    runClaim keccak st p n s ctx = (st, some .InsufficientVaultBalance) ∧
    (runClaim keccak st₂ p₂ n₂ s₂ ctx₂).1 = st₂ := by
  constructor
  · have hcc : checkClaimable st.position n = none :=
      (checkClaimable_none_iff _ _).mpr ⟨hcl, hnu⟩
    unfold runClaim claim_with_proof
    rw [hres, if_neg (by simp), hcc, hval, if_pos hover]
  · unfold runClaim at herr ⊢
    cases hc : claim_with_proof keccak st₂ p₂ n₂ s₂ ctx₂ with
    | error e2 => rfl
    | ok st3 => rw [hc] at herr; simp at herr

/-- C8 witness: a valid proof for payout 101 against a vault holding
100 fails `InsufficientVaultBalance` and leaves the state untouched. -/
theorem C8_insufficient_vault_witness :
    runClaim keccakC stC 101 42 sigC ctxC =
      (stC, some .InsufficientVaultBalance) ∧
    (runClaim keccakC stC 101 42 sigC ctxC).1 = stC :=
  C8_insufficient_vault keccakC stC stC 101 42 101 42 sigC sigC ctxC ctxC
    .InsufficientVaultBalance (by decide) (by decide) (by decide)
    (by decide) (by decide) (by decide)

/-- C2: for every key, at most one claim in any sequence of attempts
ever succeeds, and once the entry is claimed, every further
`claim_with_proof` call (whatever proof it presents) fails
`AlreadyClaimed`. -/
theorem C2_at_most_one_settlement (keccak : List Nat → List Nat)
    (st : ClaimState) (l : List ClaimArgs) (p n : Nat) (s : List Nat)
    (ctx : List Instruction) :
    countSuccesses keccak st l ≤ 1 ∧
    (st.market.resolved = true → st.position.claimed = true →
      claim_with_proof keccak st p n s ctx = .error .AlreadyClaimed) := by
  refine ⟨count_le_one keccak l st, fun hres hcl => ?_⟩
  rw [claim_claimed_error hcl, hres, if_neg (by simp)]

/-- C2 witness: after the concrete successful claim, a different
validly signed fresh proof is rejected `AlreadyClaimed`; success
counting over a concrete attempt list stays at most one. -/
theorem C2_at_most_one_settlement_witness :
    countSuccesses keccakC (settleState stC 5 42)
        [⟨7, 43, sigC, ctxC⟩, ⟨7, 44, sigC, ctxC⟩] ≤ 1 ∧
    claim_with_proof keccakC (settleState stC 5 42) 7 43 sigC ctxC =
      .error .AlreadyClaimed :=
  ⟨(C2_at_most_one_settlement keccakC (settleState stC 5 42)
      [⟨7, 43, sigC, ctxC⟩, ⟨7, 44, sigC, ctxC⟩] 7 43 sigC ctxC).1,
    (C2_at_most_one_settlement keccakC (settleState stC 5 42)
      [⟨7, 43, sigC, ctxC⟩, ⟨7, 44, sigC, ctxC⟩] 7 43 sigC ctxC).2
      (by decide) (by decide)⟩

/-- C5: a successful `claim_with_proof` implies the side-channel
Ed25519 instruction at index 0 targets the Ed25519 program, carries the
hardcoded MXE authority key byte-for-byte, carries exactly the
signature the claim presented, and carries exactly the digest
recomputed on-chain from `(market, user, payout, nonce)`; any mismatch
is therefore rejected as an error — there is no blind-trust path. -/
theorem C5_no_blind_trust (keccak : List Nat → List Nat)
    (st st2 : ClaimState) (payout nonce : Nat) (s : List Nat)
    (ctx : List Instruction) (ix : Instruction)
    (hok : claim_with_proof keccak st payout nonce s ctx = .ok st2)
    (hix : ctx.head? = some ix) :
    ix.programId = ed25519ProgramID ∧
    sliceAt ix.data (pubkeyOffsetOf ix.data) 32 = some MXE_PUBKEY ∧
    sliceAt ix.data (signatureOffsetOf ix.data) 64 = some s ∧
    sliceAt ix.data (messageOffsetOf ix.data) 32 =
      some (construct_payout_message keccak st.market.key st.userKey
        payout nonce) := by
  obtain ⟨-, -, -, hv, -, -⟩ := claim_ok_spec hok
  obtain ⟨ix', hix', h1, h2, h3, h4, h5⟩ := (verify_ok_iff _ _ _).mp hv
  rw [hix] at hix'
  cases Option.some.inj hix'
  exact ⟨h1, h3, h4, h5⟩

/-- C5 witness: the concrete successful claim, with the Ed25519
instruction's components extracted by the theorem. -/
theorem C5_no_blind_trust_witness :
    Instruction.programId ⟨ed25519ProgramID, ixDataC⟩ = ed25519ProgramID ∧
    sliceAt ixDataC (pubkeyOffsetOf ixDataC) 32 = some MXE_PUBKEY ∧
    sliceAt ixDataC (signatureOffsetOf ixDataC) 64 = some sigC ∧
    sliceAt ixDataC (messageOffsetOf ixDataC) 32 =
      some (construct_payout_message keccakC stC.market.key stC.userKey
        5 42) :=
  C5_no_blind_trust keccakC stC (settleState stC 5 42) 5 42 sigC ctxC
    ⟨ed25519ProgramID, ixDataC⟩ (by decide) rfl

/-- C9: a valid proof with payout 0 is claimable — the claim succeeds,
sets `claimed = true`, records the consumed nonce, moves no funds out
of the vault — and every subsequent claim attempt for the key, with any
proof, fails `AlreadyClaimed`. -/
theorem C9_zero_payout_terminal (keccak : List Nat → List Nat)
    (st : ClaimState) (N p₂ n₂ : Nat) (s s₂ : List Nat)
    (ctx ctx₂ : List Instruction)
    (hres : st.market.resolved = true)
    (hcl : st.position.claimed = false)
    (hnu : st.position.nonce_used = 0)
    (hval : verify_mxe_signature ctx
      (construct_payout_message keccak st.market.key st.userKey 0 N) s =
      .ok ()) :
    claim_with_proof keccak st 0 N s ctx = .ok (settleState st 0 N) ∧
    (settleState st 0 N).position.claimed = true ∧
    (settleState st 0 N).position.nonce_used = N ∧
    (settleState st 0 N).vaultAmount = st.vaultAmount ∧
    claim_with_proof keccak (settleState st 0 N) p₂ n₂ s₂ ctx₂ =
      .error .AlreadyClaimed := by
  have hcc : checkClaimable st.position N = none :=
    (checkClaimable_none_iff _ _).mpr ⟨hcl, hnu⟩
  refine ⟨?_, rfl, rfl, by simp [settleState], ?_⟩
  · unfold claim_with_proof
    rw [hres, if_neg (by simp), hcc, hval, if_neg (by simp)]
  · rw [claim_claimed_error (by simp [settleState])]
    have : (settleState st 0 N).market.resolved = true := hres
    rw [this, if_neg (by simp)]

/-- C9 witness: the concrete zero-payout claim succeeds, flags the
entry claimed with nonce 42, leaves the vault at 100, and a subsequent
attempt fails `AlreadyClaimed`. -/
theorem C9_zero_payout_terminal_witness :
    claim_with_proof keccakC stC 0 42 sigC ctxC =
      .ok (settleState stC 0 42) ∧
    (settleState stC 0 42).position.claimed = true ∧
    (settleState stC 0 42).position.nonce_used = 42 ∧
    (settleState stC 0 42).vaultAmount = stC.vaultAmount ∧
    claim_with_proof keccakC (settleState stC 0 42) 7 43 sigC ctxC =
      .error .AlreadyClaimed :=
  C9_zero_payout_terminal keccakC stC 42 7 43 sigC sigC ctxC ctxC
    (by decide) (by decide) (by decide) (by decide)

/-- Invariant-preservation engine for C10: any sequence of claims
preserves "unclaimed entries have `nonce_used = 0`", because the only
write to either field is the joint commit that sets both. -/
theorem seqClaim_unclaimed_nonce_zero (keccak : List Nat → List Nat) :
    ∀ (l : List ClaimArgs) (st : ClaimState),
      (st.position.claimed = false → st.position.nonce_used = 0) →
      ((seqClaim keccak st l).position.claimed = false →
        (seqClaim keccak st l).position.nonce_used = 0) := by
  intro l
  induction l with
  | nil => intro st hinv; exact hinv
  | cons a l ih =>
    intro st hinv
    rw [seqClaim]
    cases hc : claim_with_proof keccak st a.payout a.nonce a.signature
      a.ctx with
    | error e =>
      have hstep : (claimStep keccak st a).1 = st := by
        unfold claimStep; rw [hc]
      rw [hstep]
      exact ih st hinv
    | ok st2 =>
      have hstep : (claimStep keccak st a).1 = st2 := by
        unfold claimStep; rw [hc]
      rw [hstep]
      refine ih st2 fun hcl => ?_
      rw [claim_ok_claimed hc] at hcl
      cases hcl

/-- C10: in every ledger state reachable through `claim_with_proof`
from a state satisfying "claimed == false implies nonce_used == 0" (in
particular from a zero-initialized entry), the implication still holds:
the two flags are only ever written together by the single commit
step. -/
theorem C10_claimed_nonce_coupled (keccak : List Nat → List Nat)
    (st : ClaimState) (l : List ClaimArgs)
    (hinv : st.position.claimed = false → st.position.nonce_used = 0) :
    (seqClaim keccak st l).position.claimed = false →
      (seqClaim keccak st l).position.nonce_used = 0 :=
  seqClaim_unclaimed_nonce_zero keccak l st hinv

/-- C10 witness: after a concrete rejected attempt (no Ed25519
instruction in the transaction) the entry is still unclaimed, and the
coupling invariant gives `nonce_used = 0`. -/
theorem C10_claimed_nonce_coupled_witness :
    (seqClaim keccakC stC [⟨5, 42, sigC, []⟩]).position.nonce_used = 0 :=
  C10_claimed_nonce_coupled keccakC stC [⟨5, 42, sigC, []⟩] (by decide)
    (by decide)

/-! ## Helper facts for the tamper-detection claim -/

theorem keccakInj_injective : Function.Injective keccakInj := by
  intro a b h
  simp only [keccakInj, List.cons.injEq] at h
  exact Encodable.encode_injective h.1

theorem mkIxData_getD (pubkey sig msg : List Nat) (i : Nat)
    (hi : i < 16) :
    (mkIxData pubkey sig msg).getD i 0 = ed25519HeaderC.getD i 0 := by
  unfold mkIxData
  rw [List.append_assoc, List.append_assoc]
  exact List.getD_append _ _ _ i (by simpa [ed25519HeaderC] using hi)

theorem pubkeyOffsetOf_mkIxData (pubkey sig msg : List Nat) :
    pubkeyOffsetOf (mkIxData pubkey sig msg) = 16 := by
  unfold pubkeyOffsetOf readU16le
  rw [mkIxData_getD _ _ _ 4 (by norm_num),
    mkIxData_getD _ _ _ 5 (by norm_num)]
  decide

theorem signatureOffsetOf_mkIxData (pubkey sig msg : List Nat) :
    signatureOffsetOf (mkIxData pubkey sig msg) = 48 := by
  unfold signatureOffsetOf readU16le
  rw [mkIxData_getD _ _ _ 2 (by norm_num),
    mkIxData_getD _ _ _ 3 (by norm_num)]
  decide

theorem messageOffsetOf_mkIxData (pubkey sig msg : List Nat) :
    messageOffsetOf (mkIxData pubkey sig msg) = 112 := by
  unfold messageOffsetOf readU16le
  rw [mkIxData_getD _ _ _ 6 (by norm_num),
    mkIxData_getD _ _ _ 7 (by norm_num)]
  decide

theorem mkIxData_length {pubkey sig msg : List Nat}
    (hp : pubkey.length = 32) (hs : sig.length = 64)
    (hm : msg.length = 32) :
    (mkIxData pubkey sig msg).length = 144 := by
  simp [mkIxData, ed25519HeaderC, hp, hs, hm]

theorem sliceAt_mkIxData_pubkey {pubkey sig msg : List Nat}
    (hp : pubkey.length = 32) (hs : sig.length = 64)
    (hm : msg.length = 32) :
    sliceAt (mkIxData pubkey sig msg) 16 32 = some pubkey := by
  unfold sliceAt
  rw [if_pos (by rw [mkIxData_length hp hs hm]; norm_num)]
  unfold mkIxData
  rw [List.append_assoc, List.append_assoc,
    show (16 : Nat) = ed25519HeaderC.length from rfl, List.drop_left,
    ← hp, List.take_left]

theorem sliceAt_mkIxData_sig {pubkey sig msg : List Nat}
    (hp : pubkey.length = 32) (hs : sig.length = 64)
    (hm : msg.length = 32) :
    sliceAt (mkIxData pubkey sig msg) 48 64 = some sig := by
  unfold sliceAt
  rw [if_pos (by rw [mkIxData_length hp hs hm]; norm_num)]
  unfold mkIxData
  rw [List.append_assoc (ed25519HeaderC ++ pubkey) sig msg,
    show (48 : Nat) = (ed25519HeaderC ++ pubkey).length from by
      simp [ed25519HeaderC, hp],
    List.drop_left, ← hs, List.take_left]

theorem sliceAt_mkIxData_msg {pubkey sig msg : List Nat}
    (hp : pubkey.length = 32) (hs : sig.length = 64)
    (hm : msg.length = 32) :
    sliceAt (mkIxData pubkey sig msg) 112 32 = some msg := by
  unfold sliceAt
  rw [if_pos (by rw [mkIxData_length hp hs hm])]
  unfold mkIxData
  rw [show (112 : Nat) = (ed25519HeaderC ++ pubkey ++ sig).length from by
      simp [ed25519HeaderC, hp, hs],
    List.drop_left, ← hm, List.take_length]

theorem verify_mkIxData {sig msg : List Nat}
    (hs : sig.length = 64) (hm : msg.length = 32) :
    verify_mxe_signature
      [⟨ed25519ProgramID, mkIxData MXE_PUBKEY sig msg⟩] msg sig =
      .ok () := by
  have hp : MXE_PUBKEY.length = 32 := by simp [MXE_PUBKEY]
  refine (verify_ok_iff _ _ _).mpr
    ⟨⟨ed25519ProgramID, mkIxData MXE_PUBKEY sig msg⟩, rfl, rfl, ?_, ?_,
      ?_, ?_⟩
  · show 8 ≤ (mkIxData MXE_PUBKEY sig msg).length
    rw [mkIxData_length hp hs hm]
    norm_num
  · show sliceAt (mkIxData MXE_PUBKEY sig msg)
        (pubkeyOffsetOf (mkIxData MXE_PUBKEY sig msg)) 32 = some MXE_PUBKEY
    rw [pubkeyOffsetOf_mkIxData]
    exact sliceAt_mkIxData_pubkey hp hs hm
  · show sliceAt (mkIxData MXE_PUBKEY sig msg)
        (signatureOffsetOf (mkIxData MXE_PUBKEY sig msg)) 64 = some sig
    rw [signatureOffsetOf_mkIxData]
    exact sliceAt_mkIxData_sig hp hs hm
  · show sliceAt (mkIxData MXE_PUBKEY sig msg)
        (messageOffsetOf (mkIxData MXE_PUBKEY sig msg)) 32 = some msg
    rw [messageOffsetOf_mkIxData]
    exact sliceAt_mkIxData_msg hp hs hm

/-- C1: a proof validly signed over `(market, user, payout, nonce)` —
modelled as a side-channel context verifying the digest of exactly that
tuple, under a collision-free hash — submitted with any component of
the tuple altered while keeping the original signature, fails with
`MessageMismatch` and transfers nothing (the pre-state is returned
untouched). -/
theorem C1_tamper_rejected (keccak : List Nat → List Nat)
    (st : ClaimState) (m u s : List Nat) (P N p' n' : Nat)
    (ctx : List Instruction)
    (hinj : Function.Injective keccak)
    (hm : m.length = 32) (hu : u.length = 32)
    (hm' : st.market.key.length = 32) (hu' : st.userKey.length = 32)
    (hP : P < 2 ^ 64) (hN : N < 2 ^ 64)
    (hp' : p' < 2 ^ 64) (hn' : n' < 2 ^ 64)
    (hres : st.market.resolved = true)
    (hcl : st.position.claimed = false)
    (hnu : st.position.nonce_used = 0)
    (hvalid : verify_mxe_signature ctx
      (construct_payout_message keccak m u P N) s = .ok ())
    (hdiff : (st.market.key, st.userKey, p', n') ≠ (m, u, P, N)) :
    runClaim keccak st p' n' s ctx = (st, some .MessageMismatch) := by
  obtain ⟨ix, hhead, h1, h2, h3, h4, h5⟩ := (verify_ok_iff _ _ _).mp hvalid
  have hne : construct_payout_message keccak m u P N ≠
      construct_payout_message keccak st.market.key st.userKey p' n' := by
    intro he
    obtain ⟨e1, e2, e3, e4⟩ :=
      construct_payout_data_inj hm hm' hu hu' hP hp' hN hn' (hinj he)
    exact hdiff (by rw [e1, e2, e3, e4])
  have hcc : checkClaimable st.position n' = none :=
    (checkClaimable_none_iff _ _).mpr ⟨hcl, hnu⟩
  have hv : verify_mxe_signature ctx
      (construct_payout_message keccak st.market.key st.userKey p' n')
      s = .error .MessageMismatch := by
    unfold verify_mxe_signature
    rw [hhead]
    simp only [h3, h4, h5]
    rw [if_neg (not_not_intro h1), if_neg (Nat.not_lt.mpr h2),
      if_neg (not_not_intro rfl), if_neg (not_not_intro rfl),
      if_pos hne]
  unfold runClaim claim_with_proof
  rw [hres, if_neg (by simp), hcc, hv]

/-- C1 witness: a proof context carrying the injective stand-in hash's
digest of the tuple `(0x11…11, 0x22…22, 5, 42)`, submitted with payout
7 instead of 5 and the original signature, is rejected with
`MessageMismatch` and the state is unchanged. -/
theorem C1_tamper_rejected_witness :
    Function.Injective keccakInj ∧
    runClaim keccakInj stC 7 42 sigC
        [⟨ed25519ProgramID,
          mkIxData MXE_PUBKEY sigC
            (construct_payout_message keccakInj marketKeyC userKeyC
              5 42)⟩] =
      (stC, some .MessageMismatch) :=
  ⟨keccakInj_injective,
    C1_tamper_rejected keccakInj stC marketKeyC userKeyC sigC 5 42 7 42
      [⟨ed25519ProgramID,
        mkIxData MXE_PUBKEY sigC
          (construct_payout_message keccakInj marketKeyC userKeyC 5 42)⟩]
      keccakInj_injective (by decide) (by decide) (by decide) (by decide)
      (by decide) (by decide) (by decide) (by decide) (by decide)
      (by decide) (by decide)
      (verify_mkIxData (by decide)
        (by simp [construct_payout_message, keccakInj]))
      (by decide)⟩

end Nexora
